import Mathlib

/-!
Shallow embedding of the `const-arrayvec` crate (src/src/lib.rs and
src/src/drain.rs) and verification of its specification claims.

Modelling conventions:
* The backing buffer `[MaybeUninit<T>; N]` is a `List (Option T)` of length
  `N`; a slot holding `none` is uninitialized (or moved out of / already
  destructed), a slot holding `some x` is a live value `x`.
* A raw pointer into the buffer is an element index from the base pointer
  (the source asserts `size_of::<T>() != 0`, so pointer arithmetic is in
  whole elements).
* `ptr::write` is `List.set`; `ptr::read` returns the slot's contents and,
  since it transfers ownership out of the slot, leaves the slot
  uninitialized in the model; `ptr::drop_in_place` marks slots
  uninitialized.  Reading an uninitialized slot is undefined behaviour in
  the source; the model returns `none` there.
* `ptr::copy` (memmove, overlap-safe) is modelled by first taking the
  source segment from the unmodified buffer and then writing it slot by
  slot, which matches the as-if-via-temporary-buffer semantics.
* A Rust panic (`panic!` / `unimplemented!`) is modelled by an `Option`
  result whose `none` case is the panic; `debug_assert!` performs no check
  in release builds and is modelled by nothing.
-/

namespace ConstArrayvec

/-- `CapacityError<T>` from src/src/lib.rs: the error returned when there
is not enough space, carrying the rejected payload. -/
structure CapacityError (T : Type) where
  val : T
deriving DecidableEq, Repr

/-- Overwrite consecutive slots of `buf` starting at `dst` with the
elements of the given segment (one `List.set` per element, i.e. one
`ptr::write` per slot). -/
def writeSlice {α : Type} (buf : List α) (dst : Nat) : List α → List α
  | [] => buf
  | a :: rest => writeSlice (buf.set dst a) (dst + 1) rest

/-- `ptr::copy(src, dst, cnt)`: overlap-safe memmove of `cnt` elements.
The source segment is taken from the unmodified buffer first, matching the
as-if-copied-through-a-temporary-buffer semantics of memmove. -/
def ptrCopy {α : Type} (buf : List α) (src dst cnt : Nat) : List α :=
  writeSlice buf dst ((buf.drop src).take cnt)

/-- `ArrayVec<T, N>` from src/src/lib.rs: `items: [MaybeUninit<T>; N]`
modelled as a length-`N` list of optional slots, plus `length: usize`. -/
structure ArrayVec (T : Type) (N : Nat) where
  items : List (Option T)
  length : Nat
deriving DecidableEq, Repr

namespace ArrayVec

/-- `ArrayVec::new`: all `N` slots uninitialized, length 0. -/
def new (T : Type) (N : Nat) : ArrayVec T N :=
  { items := List.replicate N none, length := 0 }

/-- `ArrayVec::len`. -/
def len {T : Type} {N : Nat} (v : ArrayVec T N) : Nat := v.length

/-- `ArrayVec::is_empty`. -/
def is_empty {T : Type} {N : Nat} (v : ArrayVec T N) : Bool := v.len == 0

/-- `ArrayVec::capacity`. -/
def capacity {T : Type} {N : Nat} (_ : ArrayVec T N) : Nat := N

/-- `ArrayVec::remaining_capacity`. -/
def remaining_capacity {T : Type} {N : Nat} (v : ArrayVec T N) : Nat :=
  v.capacity - v.len

/-- `ArrayVec::is_full`: `self.len() >= self.capacity()`. -/
def is_full {T : Type} {N : Nat} (v : ArrayVec T N) : Bool :=
  v.capacity ≤ v.len

/-- `ArrayVec::set_len`: sets only the length field (the
`debug_assert!` is absent from release builds and is not modelled). -/
def set_len {T : Type} {N : Nat} (v : ArrayVec T N) (new_length : Nat) :
    ArrayVec T N :=
  { v with length := new_length }

/-- `ArrayVec::push_unchecked`: write `item` into slot `len`, then
`set_len(len + 1)`. -/
def push_unchecked {T : Type} {N : Nat} (v : ArrayVec T N) (item : T) :
    ArrayVec T N :=
  ({ v with items := v.items.set v.len (some item) }).set_len (v.len + 1)

/-- `ArrayVec::try_push`: error (carrying the item, vector untouched) when
full, otherwise `push_unchecked`.  The second component `none` models
`Ok(())`. -/
def try_push {T : Type} {N : Nat} (v : ArrayVec T N) (item : T) :
    ArrayVec T N × Option (CapacityError T) :=
  if v.is_full then (v, some ⟨item⟩) else (v.push_unchecked item, none)

/-- `ArrayVec::push`: panics (modelled as `none`) when `try_push` fails. -/
def push {T : Type} {N : Nat} (v : ArrayVec T N) (item : T) :
    Option (ArrayVec T N) :=
  match v.try_push item with
  | (v2, none) => some v2
  | (_, some _) => none

/-- `ArrayVec::pop`: `None` when empty; otherwise `set_len(len - 1)` and
then `ptr::read` of the now-excluded last slot (the read moves the value
out, so the model marks the slot uninitialized). -/
def pop {T : Type} {N : Nat} (v : ArrayVec T N) : ArrayVec T N × Option T :=
  if v.is_empty then (v, none)
  else
    ({ items := v.items.set (v.len - 1) none, length := v.len - 1 },
     v.items.getD (v.len - 1) none)

/-- `ArrayVec::truncate`: when `new_length < len`, destruct the slots
`[new_length, len)` (`ptr::drop_in_place` of the tail slice, modelled by
marking them uninitialized) and set the length; otherwise do nothing. -/
def truncate {T : Type} {N : Nat} (v : ArrayVec T N) (new_length : Nat) :
    ArrayVec T N :=
  if new_length < v.len then
    { items := writeSlice v.items new_length
        (List.replicate (v.len - new_length) (none : Option T)),
      length := new_length }
  else v

/-- `ArrayVec::clear`: `truncate(0)`. -/
def clear {T : Type} {N : Nat} (v : ArrayVec T N) : ArrayVec T N :=
  v.truncate 0

/-- `ArrayVec::try_insert`: panic (`none`, from the `out_of_bounds!`
macro) when `index > len`; error carrying the item with the vector
untouched when full; otherwise `ptr::copy(p, p + 1, len - index)` to shift
the tail right, `ptr::write(p, item)`, and `set_len(len + 1)`. -/
def try_insert {T : Type} {N : Nat} (v : ArrayVec T N) (index : Nat)
    (item : T) : Option (ArrayVec T N × Option (CapacityError T)) :=
  if index > v.len then none
  else if v.is_full then some (v, some ⟨item⟩)
  else
    some ({ items := (ptrCopy v.items index (index + 1)
                        (v.len - index)).set index (some item),
            length := v.len + 1 }, none)

/-- `ArrayVec::insert`: panics (modelled as `none`) when `try_insert`
panics or fails. -/
def insert {T : Type} {N : Nat} (v : ArrayVec T N) (index : Nat)
    (item : T) : Option (ArrayVec T N) :=
  match v.try_insert index item with
  | some (v2, none) => some v2
  | _ => none

/-- `ArrayVec::try_extend_from_slice`: error carrying `()` with the vector
untouched when `remaining_capacity < other.len()`; otherwise
`ptr::copy_nonoverlapping` of the slice to slots starting at `len` and
`set_len(len + other.len())`. -/
def try_extend_from_slice {T : Type} {N : Nat} (v : ArrayVec T N)
    (other : List T) : ArrayVec T N × Option (CapacityError Unit) :=
  if v.remaining_capacity < other.length then (v, some ⟨()⟩)
  else
    ({ items := writeSlice v.items v.len (other.map some),
       length := v.len + other.length }, none)

/-- `From<[T; N]> for ArrayVec<T, N>` (named `fromArray` because `from`
is reserved in Lean): copy the `N` array elements into the fresh backing
buffer and `set_len(N)`. -/
def fromArray {T : Type} {N : Nat} (other : List T) : ArrayVec T N :=
  ({ new T N with
     items := writeSlice (new T N).items 0 (other.map some) }).set_len N

/-- The logical slice view `&self[..]` exposed by `Deref`/`as_slice`:
the first `length` slots. -/
def view {T : Type} {N : Nat} (v : ArrayVec T N) : List (Option T) :=
  v.items.take v.length

/-- The element sequence of the logical slice view; meaningful on
well-formed states, where every viewed slot is live. -/
def toList {T : Type} {N : Nat} (v : ArrayVec T N) : List T :=
  v.view.reduceOption

/-- The representation invariant of `ArrayVec<T, N>`: the buffer has
exactly `N` slots, `length ≤ N`, and every slot below `length` holds a
live value. -/
def WF {T : Type} {N : Nat} (v : ArrayVec T N) : Prop :=
  v.items.length = N ∧ v.length ≤ N ∧
    ∀ i, i < v.length → (v.items.getD i none).isSome

instance instDecidableWF {T : Type} {N : Nat} (v : ArrayVec T N) :
    Decidable v.WF := by
  unfold WF
  exact inferInstance

end ArrayVec

/-- `Drain<'a, T, N>` from src/src/drain.rs.  The exclusively borrowed
vector is held by value (`inner`); `head` and `tail` are the two cursor
pointers, modelled as element indices from the base pointer. -/
structure Drain (T : Type) (N : Nat) where
  inner : ArrayVec T N
  start_of_tail : Nat
  tail_length : Nat
  head : Nat
  tail : Nat
deriving DecidableEq, Repr

namespace Drain

/-- `Drain::with_range` (the three `debug_assert!`s are absent from
release builds and are not modelled): `head = base + range.start`,
`tail = base + range.end`, `start_of_tail = range.end`, and
`tail_length = vector.len() - (range.end - range.start)` — exactly the
expression in the source. -/
def with_range {T : Type} {N : Nat} (vector : ArrayVec T N)
    (rangeStart rangeEnd : Nat) : Drain T N :=
  { inner := vector
    start_of_tail := rangeEnd
    tail_length := vector.len - (rangeEnd - rangeStart)
    head := rangeStart
    tail := rangeEnd }

/-- `Iterator::next` for `Drain`: `None` when `head == tail`; otherwise
`ptr::read` the slot under `head` (moving the value out, so the model
marks the slot uninitialized) and advance `head` by one. -/
def next {T : Type} {N : Nat} (d : Drain T N) : Drain T N × Option T :=
  if d.head = d.tail then (d, none)
  else
    ({ d with
       inner := { d.inner with items := d.inner.items.set d.head none }
       head := d.head + 1 },
     d.inner.items.getD d.head none)

/-- `DoubleEndedIterator::next_back` for `Drain`: `None` when
`head == tail`; otherwise pre-decrement `tail` and `ptr::read` the slot
now under it. -/
def next_back {T : Type} {N : Nat} (d : Drain T N) : Drain T N × Option T :=
  if d.head = d.tail then (d, none)
  else
    ({ d with
       inner := { d.inner with items := d.inner.items.set (d.tail - 1) none }
       tail := d.tail - 1 },
     d.inner.items.getD (d.tail - 1) none)

/-- `ExactSizeIterator::len` for `Drain`: the pointer difference
`tail - head` divided by the element size, i.e. the index difference in
this model. -/
def len {T : Type} {N : Nat} (d : Drain T N) : Nat := d.tail - d.head

/-- Discarding a `Drain`.  The source defines NO `Drop` implementation
for `Drain` (src/src/drain.rs contains only the `Iterator`,
`DoubleEndedIterator`, `FusedIterator` and `ExactSizeIterator` impls), so
dropping one runs only the implicit field drops — a mutable reference,
two `usize`s and two raw pointers — which leave the underlying vector
completely untouched: no unconsumed element is destructed, no tail block
is relocated, and the vector's length is not adjusted. -/
def discard {T : Type} {N : Nat} (d : Drain T N) : ArrayVec T N := d.inner

/-- `Drain::as_slice`: the body is `unimplemented!()`, which panics
unconditionally; the panic is modelled as `none`. -/
def as_slice {T : Type} {N : Nat} (_ : Drain T N) : Option (List T) := none

/-- `Drain::as_mut_slice`: the body is `unimplemented!()`, which panics
unconditionally; the panic is modelled as `none`. -/
def as_mut_slice {T : Type} {N : Nat} (_ : Drain T N) :
    Option (List T) := none

end Drain

/-- `ArrayVec::drain(range)`: `Drain::with_range(self, range)`. -/
def ArrayVec.drain {T : Type} {N : Nat} (v : ArrayVec T N)
    (rangeStart rangeEnd : Nat) : Drain T N :=
  Drain.with_range v rangeStart rangeEnd

/-- The capacity-5 container `[10, 20, 30, 40, 50]` of scenarios E and F. -/
def egVec : ArrayVec Nat 5 := ArrayVec.fromArray [10, 20, 30, 40, 50]

/-- A full capacity-2 container `[1, 2]`, as in scenario A. -/
def egFull : ArrayVec Nat 2 := ArrayVec.fromArray [1, 2]

/-- The full capacity-3 container `[1, 2, 3]` of scenario C. -/
def egFull3 : ArrayVec Nat 3 := ArrayVec.fromArray [1, 2, 3]

/-- A capacity-5 container holding `[12, 34]`, built by pushes as in
scenario B. -/
def egTwo : ArrayVec Nat 5 :=
  ((ArrayVec.new Nat 5).push_unchecked 12).push_unchecked 34

/-! Helper lemmas about the buffer primitives. -/

theorem writeSlice_length {α : Type} (seg : List α) (buf : List α)
    (dst : Nat) : (writeSlice buf dst seg).length = buf.length := by
  induction seg generalizing buf dst with
  | nil => rfl
  | cons a rest ih => rw [writeSlice, ih, List.length_set]

theorem set_take_succ {α : Type} (l : List α) (i : Nat) (a : α)
    (h : i < l.length) : (l.take (i + 1)).set i a = l.take i ++ [a] := by
  rw [List.set_eq_take_append_cons_drop,
      if_pos (by rw [List.length_take]; omega),
      List.take_take, List.drop_take, Nat.sub_self, List.take_zero,
      Nat.min_eq_left (Nat.le_succ i)]

theorem writeSlice_eq {α : Type} (seg : List α) (buf : List α) (dst : Nat)
    (h : dst + seg.length ≤ buf.length) :
    writeSlice buf dst seg =
      buf.take dst ++ seg ++ buf.drop (dst + seg.length) := by
  induction seg generalizing buf dst with
  | nil => simp [writeSlice]
  | cons a rest ih =>
    have hlen : (a :: rest).length = rest.length + 1 := rfl
    have hd : dst < buf.length := by rw [hlen] at h; omega
    rw [writeSlice, ih (buf.set dst a) (dst + 1)
        (by rw [List.length_set]; rw [hlen] at h; omega)]
    rw [List.set_take, List.drop_set_of_lt _ _ (by omega),
        set_take_succ buf dst a hd]
    have harith : dst + 1 + rest.length = dst + (a :: rest).length := by
      rw [hlen]; omega
    rw [harith]
    simp [List.append_assoc]

theorem reduceOption_map_some {α : Type} :
    ∀ l : List α, (l.map some).reduceOption = l
  | [] => rfl
  | a :: t => by
      rw [List.map_cons, List.reduceOption_cons_of_some,
          reduceOption_map_some t]

theorem all_isSome_map_some {α : Type} :
    ∀ l : List (Option α), (∀ o ∈ l, o.isSome) →
      l.reduceOption.map some = l
  | [], _ => rfl
  | none :: t, h => absurd (h none (List.mem_cons_self _ _)) (by simp)
  | some a :: t, h => by
      rw [List.reduceOption_cons_of_some, List.map_cons,
          all_isSome_map_some t (fun o ho => h o (List.mem_cons_of_mem _ ho))]

namespace ArrayVec

/-- On a well-formed state the slot view is the element sequence with
every slot live. -/
theorem view_eq_map_some {T : Type} {N : Nat} (v : ArrayVec T N)
    (h : v.WF) : v.view = v.toList.map some := by
  obtain ⟨hN, hle, hsome⟩ := h
  refine (all_isSome_map_some v.view ?_).symm
  intro o ho
  obtain ⟨i, hgo⟩ := List.mem_iff_getElem?.mp ho
  rw [ArrayVec.view, List.getElem?_take] at hgo
  by_cases hiv : i < v.length
  · rw [if_pos hiv] at hgo
    have := hsome i hiv
    rwa [List.getD_eq_getElem?_getD, hgo, Option.getD_some] at this
  · rw [if_neg hiv] at hgo
    exact Option.noConfusion hgo

/-- On a well-formed state the element sequence has exactly `length`
elements. -/
theorem length_toList {T : Type} {N : Nat} (v : ArrayVec T N)
    (h : v.WF) : v.toList.length = v.length := by
  have hmap := congrArg List.length (view_eq_map_some v h)
  rw [ArrayVec.view, List.length_take, List.length_map] at hmap
  have hle : v.length ≤ v.items.length := by rw [h.1]; exact h.2.1
  omega

end ArrayVec

/-- C1: evaluating scenario E on the code.  `drain(1..3)` does yield 20
then 30 consumed forward (and 30 then 20 consumed backward), but after
the Drain is fully consumed and discarded the container still has length
5 — not 3 — and its view is `[10, _, _, 40, 50]` with slots 1 and 2 moved
out: no compaction happens, because the source defines no `Drop`
implementation for `Drain`. -/
theorem c1_drain_scenario_e :
    ((egVec.drain 1 3).next.2 = some 20) ∧
    ((egVec.drain 1 3).next.1.next.2 = some 30) ∧
    ((egVec.drain 1 3).next.1.next.1.next.2 = none) ∧
    ((egVec.drain 1 3).next_back.2 = some 30) ∧
    ((egVec.drain 1 3).next_back.1.next_back.2 = some 20) ∧
    ((egVec.drain 1 3).next.1.next.1.discard.length = 5) ∧
    ((egVec.drain 1 3).next.1.next.1.discard.view =
      [some 10, none, none, some 40, some 50]) := by decide

/-- C2: evaluating scenario F on the code.  Discarding a `Drain` that has
yielded zero items is the identity on the container: nothing is
destructed, the tail is not relocated, and the length stays 5 instead of
becoming 3 with contents `[10, 40, 50]` — the source defines no `Drop`
implementation for `Drain`, so the §4.2 compaction sequence runs zero
times, not exactly once. -/
theorem c2_discard_is_identity :
    ((egVec.drain 1 3).discard = egVec) ∧
    (egVec.length = 5) ∧
    (egVec.view = [some 10, some 20, some 30, some 40, some 50]) := by
  exact ⟨rfl, rfl, by decide⟩

/-- C3: the claim says the recorded `tail_length` equals
`original_length - end` (here `5 - 3 = 2`), but `Drain::with_range`
computes `vector.len() - (range.end - range.start)`, which at
`len = 5`, `range = 1..3` records 3, the post-drain length rather than
the preserved-tail count. -/
theorem c3_tail_length_value :
    ((egVec.drain 1 3).tail_length = 3) ∧
    (egVec.length - 3 = 2) ∧ ((3 : Nat) ≠ 2) := by decide

/-- C9: the invariant fails on a state reachable by safe public
operations.  `egVec` itself is well-formed, but after `drain(1..3)` is
consumed twice by `next` and then discarded, the container has length 5
while slots 1 and 2 no longer hold live values (they were moved out and
no compaction ran), violating the invariant that the first `length`
slots hold valid constructed values. -/
theorem c9_invariant_violated :
    egVec.WF ∧ ¬ (egVec.drain 1 3).next.1.next.1.discard.WF := by
  constructor
  · exact ⟨by decide, by decide, by decide⟩
  · intro h
    exact absurd (h.2.2 1 (by decide)) (by decide)

/-- C4: under the length invariant `length ≤ N`, `try_push item` fails —
returning `CapacityError(item)` with the container completely unchanged —
exactly when `length = N`; otherwise it writes the item into slot
`length`, increments the length by one, and succeeds. -/
theorem c4_try_push_spec {T : Type} {N : Nat} (v : ArrayVec T N) (x : T)
    (h : v.length ≤ N) :
    (((v.try_push x).1 = v ∧ (v.try_push x).2 = some ⟨x⟩) ↔
       v.length = N) ∧
    (v.length < N →
      v.try_push x =
        ({ items := v.items.set v.length (some x),
           length := v.length + 1 }, none)) := by
  by_cases hf : N ≤ v.length
  · have heq : v.length = N := Nat.le_antisymm h hf
    constructor
    · simp [ArrayVec.try_push, ArrayVec.is_full, ArrayVec.capacity,
            ArrayVec.len, hf, heq]
    · intro hlt; omega
  · have hpush : v.try_push x =
        ({ items := v.items.set v.length (some x),
           length := v.length + 1 }, none) := by
      simp [ArrayVec.try_push, ArrayVec.is_full, ArrayVec.capacity,
            ArrayVec.len, hf, ArrayVec.push_unchecked, ArrayVec.set_len]
    constructor
    · rw [hpush]
      constructor
      · intro hp
        exact absurd hp.2 (by simp)
      · intro he
        exact absurd he (by omega)
    · intro _
      exact hpush

/-- C4 witness: scenario A's failing push of 42 onto the full capacity-2
container `[1, 2]`. -/
theorem c4_try_push_witness :
    egFull.length ≤ 2 ∧
    ((((egFull.try_push 42).1 = egFull ∧
        (egFull.try_push 42).2 = some ⟨42⟩) ↔ egFull.length = 2) ∧
     (egFull.length < 2 →
       egFull.try_push 42 =
         ({ items := egFull.items.set egFull.length (some 42),
            length := egFull.length + 1 }, none))) :=
  ⟨by decide, c4_try_push_spec egFull 42 (by decide)⟩

/-- C5: on a well-formed container with at least one slot of remaining
capacity and `i ≤ length`, `try_insert i x` succeeds and produces the
sequence `original[0..i] ++ [x] ++ original[i..]`, with the length
increased by one and index `i` reading back `x`. -/
theorem c5_try_insert_spec {T : Type} {N : Nat} (v : ArrayVec T N)
    (i : Nat) (x : T) (hwf : v.WF) (hcap : 1 ≤ v.remaining_capacity)
    (hi : i ≤ v.length) :
    ∃ v2 : ArrayVec T N,
      v.try_insert i x = some (v2, none) ∧
      v2.toList = v.toList.take i ++ x :: v.toList.drop i ∧
      v2.length = v.length + 1 ∧
      v2.toList[i]? = some x := by
  have hN : v.items.length = N := hwf.1
  have hle : v.length ≤ N := hwf.2.1
  have hlt : v.length < N := by
    have := hcap
    rw [ArrayVec.remaining_capacity, ArrayVec.capacity, ArrayVec.len]
      at this
    omega
  have hiN : i < v.items.length := by omega
  have hseglen : ((v.items.drop i).take (v.length - i)).length =
      v.length - i := by
    rw [List.length_take, List.length_drop, hN]
    omega
  have hcopy : ptrCopy v.items i (i + 1) (v.length - i) =
      v.items.take (i + 1) ++ (v.items.drop i).take (v.length - i) ++
        v.items.drop (v.length + 1) := by
    rw [ptrCopy, writeSlice_eq _ _ _ (by rw [hseglen, hN]; omega), hseglen]
    have harith : i + 1 + (v.length - i) = v.length + 1 := by omega
    rw [harith]
  have hsetapp : (ptrCopy v.items i (i + 1) (v.length - i)).set i
        (some x) =
      (v.items.take i ++ [some x]) ++
        (v.items.drop i).take (v.length - i) ++
        v.items.drop (v.length + 1) := by
    rw [hcopy,
        List.set_append_left _ _
          (by rw [List.length_append, List.length_take, hseglen, hN]
              omega),
        List.set_append_left _ _
          (by rw [List.length_take, hN]; omega),
        set_take_succ v.items i (some x) hiN]
  have hv2view :
      (⟨(ptrCopy v.items i (i + 1) (v.length - i)).set i (some x),
        v.length + 1⟩ : ArrayVec T N).view =
      v.view.take i ++ some x :: v.view.drop i := by
    rw [ArrayVec.view, hsetapp,
        List.take_left'
          (by rw [List.length_append, List.length_append,
                  List.length_take, hseglen, hN]
              simp
              omega)]
    have h1 : v.items.take i = v.view.take i := by
      rw [ArrayVec.view, List.take_take, Nat.min_eq_left hi]
    have h2 : (v.items.drop i).take (v.length - i) = v.view.drop i := by
      rw [ArrayVec.view, List.drop_take]
    rw [h1, h2, List.append_assoc]
    rfl
  refine ⟨⟨(ptrCopy v.items i (i + 1) (v.length - i)).set i (some x),
    v.length + 1⟩, ?_, ?_, rfl, ?_⟩
  · have hgt : ¬ i > v.length := by omega
    have hfull : ¬ N ≤ v.length := by omega
    simp [ArrayVec.try_insert, ArrayVec.len, ArrayVec.is_full,
          ArrayVec.capacity, hgt, hfull]
  · rw [ArrayVec.toList, hv2view, ArrayVec.view_eq_map_some v hwf,
        ← List.map_take, ← List.map_drop, List.reduceOption_append,
        List.reduceOption_cons_of_some, reduceOption_map_some,
        reduceOption_map_some]
  · have htl : (⟨(ptrCopy v.items i (i + 1) (v.length - i)).set i
          (some x), v.length + 1⟩ : ArrayVec T N).toList =
        v.toList.take i ++ x :: v.toList.drop i := by
      rw [ArrayVec.toList, hv2view, ArrayVec.view_eq_map_some v hwf,
          ← List.map_take, ← List.map_drop, List.reduceOption_append,
          List.reduceOption_cons_of_some, reduceOption_map_some,
          reduceOption_map_some]
    have hlenTake : (v.toList.take i).length = i := by
      rw [List.length_take, ArrayVec.length_toList v hwf]
      omega
    rw [htl, List.getElem?_append_right (by rw [hlenTake]), hlenTake,
        Nat.sub_self]
    simp

/-- C5 witness: scenario B — inserting 56 at index 1 of the capacity-5
container `[12, 34]` gives `[12, 56, 34]`. -/
theorem c5_try_insert_witness :
    egTwo.WF ∧ 1 ≤ egTwo.remaining_capacity ∧ 1 ≤ egTwo.length ∧
    (∃ v2 : ArrayVec Nat 5,
       egTwo.try_insert 1 56 = some (v2, none) ∧
       v2.toList = egTwo.toList.take 1 ++ 56 :: egTwo.toList.drop 1 ∧
       v2.length = egTwo.length + 1 ∧
       v2.toList[1]? = some 56) :=
  ⟨by decide, by decide, by decide,
   c5_try_insert_spec egTwo 1 56 (by decide) (by decide) (by decide)⟩

/-- C6: on a full container (`length = N`, under the length invariant)
with `index ≤ length`, `try_insert` fails returning `CapacityError(item)`
with the container unchanged; `index > length` panics (modelled as
`none`) in both `try_insert` and `insert`, with no recoverable path; and
`index = length` on a non-full container is a valid append, identical to
the unchecked push. -/
theorem c6_try_insert_bounds {T : Type} {N : Nat} (v : ArrayVec T N)
    (i : Nat) (x : T) :
    (v.length = N → i ≤ v.length →
      v.try_insert i x = some (v, some ⟨x⟩)) ∧
    (i > v.length → v.try_insert i x = none ∧ v.insert i x = none) ∧
    (v.length < N →
      v.try_insert v.length x = some (v.push_unchecked x, none)) := by
  refine ⟨?_, ?_, ?_⟩
  · intro hfull hi
    have hgt : ¬ i > v.length := by omega
    have hf : N ≤ v.length := by omega
    simp [ArrayVec.try_insert, ArrayVec.len, ArrayVec.is_full,
          ArrayVec.capacity, hgt, hf]
  · intro hgt
    have h1 : v.try_insert i x = none := by
      simp [ArrayVec.try_insert, ArrayVec.len, hgt]
    exact ⟨h1, by simp [ArrayVec.insert, h1]⟩
  · intro hlt
    have hgt : ¬ v.length > v.length := by omega
    have hf : ¬ N ≤ v.length := by omega
    simp [ArrayVec.try_insert, ArrayVec.len, ArrayVec.is_full,
          ArrayVec.capacity, hgt, hf, ptrCopy, Nat.sub_self,
          List.take_zero, writeSlice, ArrayVec.push_unchecked,
          ArrayVec.set_len]

/-- C6 witness: scenario C — `try_insert(1, 7)` on the full `[1, 2, 3]`
fails carrying 7 with the container unchanged; an out-of-bounds index
panics in both forms; `index = length` appends on a non-full container. -/
theorem c6_try_insert_witness :
    (egFull3.try_insert 1 7 = some (egFull3, some ⟨7⟩)) ∧
    (egFull3.try_insert 9 7 = none ∧ egFull3.insert 9 7 = none) ∧
    (egTwo.try_insert egTwo.length 99 =
      some (egTwo.push_unchecked 99, none)) :=
  ⟨(c6_try_insert_bounds egFull3 1 7).1 (by decide) (by decide),
   (c6_try_insert_bounds egFull3 9 7).2.1 (by decide),
   (c6_try_insert_bounds egTwo 0 99).2.2 (by decide)⟩

/-- C7: `try_extend_from_slice` appends a copy of all the slice's
elements in order when they fit in the remaining capacity, and otherwise
fails with a `CapacityError` carrying the empty marker `()` and the
container completely unchanged (zero elements copied). -/
theorem c7_try_extend_spec {T : Type} {N : Nat} (v : ArrayVec T N)
    (other : List T) (hwf : v.WF) :
    (other.length ≤ v.remaining_capacity →
      (v.try_extend_from_slice other).2 = none ∧
      (v.try_extend_from_slice other).1.toList = v.toList ++ other ∧
      (v.try_extend_from_slice other).1.length =
        v.length + other.length) ∧
    (v.remaining_capacity < other.length →
      v.try_extend_from_slice other = (v, some ⟨()⟩)) := by
  have hN : v.items.length = N := hwf.1
  have hle : v.length ≤ N := hwf.2.1
  refine ⟨?_, ?_⟩
  · intro hfit
    have hsum : v.length + other.length ≤ N := by
      rw [ArrayVec.remaining_capacity, ArrayVec.capacity, ArrayVec.len]
        at hfit
      omega
    have hrem : ¬ v.remaining_capacity < other.length := by omega
    have hext : v.try_extend_from_slice other =
        ({ items := writeSlice v.items v.len (other.map some),
           length := v.len + other.length }, none) := by
      simp [ArrayVec.try_extend_from_slice, hrem]
    refine ⟨by rw [hext], ?_, by rw [hext]; rfl⟩
    simp only [hext]
    rw [ArrayVec.toList, ArrayVec.view]
    show ((writeSlice v.items v.len (other.map some)).take
      (v.len + other.length)).reduceOption = _
    rw [writeSlice_eq _ _ _
          (by rw [List.length_map, hN]; exact hsum),
        List.take_left'
          (by rw [List.length_append, List.length_take, List.length_map,
                  hN]
              show min v.length N + other.length = v.length + other.length
              omega),
        List.reduceOption_append, reduceOption_map_some]
    rfl
  · intro hover
    simp [ArrayVec.try_extend_from_slice, hover]

/-- C7 witness: extending the capacity-5 `[12, 34]` by `[1, 2, 3]` fits
and yields `[12, 34, 1, 2, 3]`, while extending it by four elements
overflows and leaves it unchanged with the empty-marker error. -/
theorem c7_try_extend_witness :
    egTwo.WF ∧
    (([1, 2, 3] : List Nat).length ≤ egTwo.remaining_capacity ∧
      (egTwo.try_extend_from_slice [1, 2, 3]).2 = none ∧
      (egTwo.try_extend_from_slice [1, 2, 3]).1.toList =
        egTwo.toList ++ [1, 2, 3] ∧
      (egTwo.try_extend_from_slice [1, 2, 3]).1.length =
        egTwo.length + ([1, 2, 3] : List Nat).length) ∧
    (egTwo.remaining_capacity < ([7, 7, 7, 7] : List Nat).length ∧
      egTwo.try_extend_from_slice [7, 7, 7, 7] = (egTwo, some ⟨()⟩)) :=
  ⟨by decide,
   ⟨by decide,
    (c7_try_extend_spec egTwo [1, 2, 3] (by decide)).1 (by decide)⟩,
   ⟨by decide,
    (c7_try_extend_spec egTwo [7, 7, 7, 7] (by decide)).2 (by decide)⟩⟩

/-- C8: pushing `x` onto a well-formed container with at least one slot
of remaining capacity and then immediately popping succeeds, returns
`x`, and leaves the container with its prior length and prior element
sequence. -/
theorem c8_push_pop_roundtrip {T : Type} {N : Nat} (v : ArrayVec T N)
    (x : T) (hwf : v.WF) (hcap : 1 ≤ v.remaining_capacity) :
    (v.try_push x).2 = none ∧
    (v.try_push x).1.pop.2 = some x ∧
    (v.try_push x).1.pop.1.length = v.length ∧
    (v.try_push x).1.pop.1.toList = v.toList := by
  have hN : v.items.length = N := hwf.1
  have hle : v.length ≤ N := hwf.2.1
  have hlt : v.length < N := by
    have := hcap
    rw [ArrayVec.remaining_capacity, ArrayVec.capacity, ArrayVec.len]
      at this
    omega
  have hf : ¬ N ≤ v.length := by omega
  have hpush : v.try_push x =
      ({ items := v.items.set v.length (some x),
         length := v.length + 1 }, none) := by
    simp [ArrayVec.try_push, ArrayVec.is_full, ArrayVec.capacity,
          ArrayVec.len, hf, ArrayVec.push_unchecked, ArrayVec.set_len]
  have hpop : ({ items := v.items.set v.length (some x),
                 length := v.length + 1 } : ArrayVec T N).pop =
      ({ items := (v.items.set v.length (some x)).set v.length none,
         length := v.length },
       (v.items.set v.length (some x)).getD v.length none) := by
    simp [ArrayVec.pop, ArrayVec.is_empty, ArrayVec.len]
  have hsetlen : ∀ a : Option T,
      (v.items.set v.length a).take v.length = v.items.take v.length := by
    intro a
    rw [List.set_take, List.set_eq_of_length_le
          (by rw [List.length_take, hN]; omega)]
  refine ⟨by rw [hpush], ?_, ?_, ?_⟩
  · simp only [hpush]
    rw [hpop, List.getD_eq_getElem?_getD,
        List.getElem?_set_self (by rw [hN]; omega)]
    rfl
  · simp only [hpush]
    rw [hpop]
  · simp only [hpush]
    rw [hpop, ArrayVec.toList, ArrayVec.view]
    show (((v.items.set v.length (some x)).set v.length
      none).take v.length).reduceOption = _
    rw [List.set_take, hsetlen (some x), List.set_eq_of_length_le
          (by rw [List.length_take, hN]; omega)]
    rfl

/-- C8 witness: pushing 99 onto the capacity-5 `[12, 34]` and popping
returns 99 and restores length 2 and contents `[12, 34]`. -/
theorem c8_push_pop_witness :
    egTwo.WF ∧ 1 ≤ egTwo.remaining_capacity ∧
    ((egTwo.try_push 99).2 = none ∧
     (egTwo.try_push 99).1.pop.2 = some 99 ∧
     (egTwo.try_push 99).1.pop.1.length = egTwo.length ∧
     (egTwo.try_push 99).1.pop.1.toList = egTwo.toList) :=
  ⟨by decide, by decide,
   c8_push_pop_roundtrip egTwo 99 (by decide) (by decide)⟩

/-- C10: `Drain::as_slice` and `Drain::as_mut_slice` have
`unimplemented!()` bodies, so both panic (modelled as `none`) for every
`Drain` in every state. -/
theorem c10_as_slice_panics {T : Type} {N : Nat} (d : Drain T N) :
    d.as_slice = none ∧ d.as_mut_slice = none := ⟨rfl, rfl⟩

end ConstArrayvec
